import Mathlib

/-!
# Verification of the Dhan F&O bot's ingestion/normalization core

Shallow embedding of `src/nifty_bot.py` (class `FnOTradingBot`).
Python floats are modelled as `ℚ`; Python dicts as association lists;
fallible operations (a raised exception caught by the enclosing
`try/except`) as `Option`/sum results.
-/


/-- Python's builtin `abs` on a rational: `-q` when `q < 0`, else `q`
(equal to mathematical `|q|`, see `pyAbs_eq_abs`). -/
def pyAbs (q : ℚ) : ℚ :=
  if q < 0 then -q else q

/-- Python's `min(iterable, key=f)` on a non-empty list `x :: xs`:
a left fold keeping the earlier element on ties (`if f a < f b then a else b`
replaces the accumulator only on a strictly smaller key), which is exactly
CPython's first-minimum-wins semantics. -/
def pyMin (f : ℚ → ℚ) (x : ℚ) (xs : List ℚ) : ℚ :=
  xs.foldl (fun b a => if f a < f b then a else b) x

/-- Lines 411–417 of `format_option_data_for_ai`, run on an already
extracted key list `S` (the floats parsed from `oc.keys()`):

    strikes = sorted([float(s) for s in oc.keys()])
    atm_strike = min(strikes, key=lambda x: abs(x - spot_price))
    atm_idx = strikes.index(atm_strike)
    start_idx = max(0, atm_idx - 5)
    end_idx = min(len(strikes), atm_idx + 6)
    selected_strikes = strikes[start_idx:end_idx]

`min` on an empty sequence raises `ValueError` (caught by the function's
blanket `except`, which returns `""`): modelled by `none`.  Python's
`max(0, atm_idx - 5)` is `Nat` truncated subtraction; the slice
`strikes[start:end]` with `0 ≤ start ≤ end` is `take (end - start) ∘ drop
start`. -/
def windowSlice (spot : ℚ) (x : ℚ) (xs : List ℚ) : ℚ × List ℚ :=
  let strikes := x :: xs
  let atm := pyMin (fun y => pyAbs (y - spot)) x xs
  let i := strikes.indexOf atm
  let start := i - 5
  let stop := min strikes.length (i + 6)
  (atm, (strikes.drop start).take (stop - start))

def optionWindow (spot : ℚ) (S : List ℚ) : Option (ℚ × List ℚ) :=
  match List.insertionSort (· ≤ ·) S with
  | [] => none
  | x :: xs => some (windowSlice spot x xs)

/-- The sorted strike ladder the code builds (`sorted([float(s) ...])`). -/
def sortedStrikes (S : List ℚ) : List ℚ :=
  List.insertionSort (· ≤ ·) S

/-- Greeks block of one option side (`'greeks'` sub-dict); every field may
be missing upstream. -/
structure OptionGreeks where
  delta : Option ℚ
  theta : Option ℚ
  gamma : Option ℚ
deriving DecidableEq

/-- One side (`'ce'` or `'pe'`) of a strike entry in the option-chain
payload; each field may be absent, matching the Python `.get(key, 0)`
accesses. -/
structure OptionSide where
  last_price : Option ℚ
  oi : Option ℚ
  volume : Option ℚ
  implied_volatility : Option ℚ
  greeks : Option OptionGreeks
deriving DecidableEq

/-- One entry of the `'oc'` dict: the `'ce'`/`'pe'` sub-dicts may be
absent. -/
structure StrikeData where
  ce : Option OptionSide
  pe : Option OptionSide
deriving DecidableEq

/-- The option-chain payload `data['data']` returned by
`get_option_chain`: `'last_price'` may be absent, `'oc'` is a dict keyed by
strike (keys modelled as the parsed floats; the Python code round-trips
them through `f"{strike:.6f}"`). -/
structure OcPayload where
  last_price : Option ℚ
  oc : List (ℚ × StrikeData)
deriving DecidableEq

/-- Python `dict.get(k, default)` on an association list. -/
def dictGet {α : Type} (d : List (ℚ × α)) (k : ℚ) (dflt : α) : α :=
  match d.find? (fun kv => kv.1 == k) with
  | some kv => kv.2
  | none => dflt

/-- Line 359 of `pre_filter_stock` and line 656 of `process_stock`:
`spot_price = oc_data.get('last_price', 0)`. -/
def spot_price_of (d : OcPayload) : ℚ :=
  d.last_price.getD 0

/-- `atm_data.get('ce', {})` followed by `{}.get(field, 0)`: a missing
side dict or a missing field both read as `0`. -/
def sideField (s : Option OptionSide) (f : OptionSide → Option ℚ) : ℚ :=
  match s with
  | none => 0
  | some v => (f v).getD 0

/-- Lines 366–367 of `pre_filter_stock`:
`strikes = sorted([float(s) for s in oc.keys()])` then
`atm_strike = min(strikes, key=lambda x: abs(x - spot_price))`.
Only evaluated when `oc` is non-empty (the function returns early on an
empty chain, so the `[]` branch below is unreachable there). -/
def atmStrikeOf (d : OcPayload) : ℚ :=
  match List.insertionSort (· ≤ ·) (d.oc.map Prod.fst) with
  | [] => 0
  | x :: xs => pyMin (fun y => pyAbs (y - spot_price_of d)) x xs

/-- Line 370: `atm_data = oc.get(f"{atm_strike:.6f}", {})`. -/
def atm_data_of (d : OcPayload) : StrikeData :=
  dictGet d.oc (atmStrikeOf d) ⟨none, none⟩

def atmCeOI (d : OcPayload) : ℚ := sideField (atm_data_of d).ce OptionSide.oi

def atmPeOI (d : OcPayload) : ℚ := sideField (atm_data_of d).pe OptionSide.oi

def atmCeIV (d : OcPayload) : ℚ :=
  sideField (atm_data_of d).ce OptionSide.implied_volatility

def atmPeIV (d : OcPayload) : ℚ :=
  sideField (atm_data_of d).pe OptionSide.implied_volatility

/-- Line 383: `pcr = pe_oi / ce_oi if ce_oi > 0 else 0`. -/
def pcr_of (d : OcPayload) : ℚ :=
  if atmCeOI d > 0 then atmPeOI d / atmCeOI d else 0

/-- The outcome paired with the verdict by `pre_filter_stock` (the Python
returns a reason string or a result dict; we keep the discriminating
payload). -/
inductive FilterVerdict
  | noOc
  | lowOI (total : ℚ)
  | pcrOut (pcr : ℚ)
  | highIV (iv : ℚ)
  | passed (oi pcr iv atm : ℚ)
deriving DecidableEq

/-- Lines 356–405, `pre_filter_stock` (Python float literals `0.6`, `1.5`,
`50` modelled as the exact rationals they denote in the comparisons):

    if not oc: return False, "No option chain data"
    ... OI check (minimum 10,000) ...
    pcr = pe_oi / ce_oi if ce_oi > 0 else 0
    if not (0.6 <= pcr <= 1.5): return False, ...
    ... avg IV check (> 50 rejected) ...
-/
def pre_filter_stock (d : OcPayload) : Bool × FilterVerdict :=
  if d.oc = [] then (false, .noOc)
  else if atmCeOI d + atmPeOI d < 10000 then
    (false, .lowOI (atmCeOI d + atmPeOI d))
  else if ¬ ((6 : ℚ)/10 ≤ pcr_of d ∧ pcr_of d ≤ 3/2) then
    (false, .pcrOut (pcr_of d))
  else if (atmCeIV d + atmPeIV d) / 2 > 50 then
    (false, .highIV ((atmCeIV d + atmPeIV d) / 2))
  else
    (true, .passed (atmCeOI d + atmPeOI d) (pcr_of d)
      ((atmCeIV d + atmPeIV d) / 2) (atmStrikeOf d))

/-- A concrete ATM call side with zero open interest. -/
def zeroCeSide : OptionSide := ⟨none, some 0, none, none, none⟩

/-- A concrete put side carrying enough open interest to pass the 10,000
gate on its own. -/
def bigPeSide : OptionSide := ⟨none, some 20000, none, none, none⟩

/-- Concrete one-strike payload whose ATM call OI is zero. -/
def zeroCePayload : OcPayload :=
  ⟨some 100, [(100, ⟨some zeroCeSide, some bigPeSide⟩)]⟩

/-- One candle record built by `get_historical_data` (keys
`timestamp/open/high/low/close/volume`; `open` is a Lean keyword, hence
the trailing underscore). -/
structure Candle where
  timestamp : String
  open_ : ℚ
  high : ℚ
  low : ℚ
  close : ℚ
  volume : ℚ
deriving DecidableEq

/-- The intraday-chart HTTP response consumed by `get_historical_data`:
status code plus the parsed JSON arrays, each `none` when its key is
absent (`data.get(key, [])` then defaults to `[]`). -/
structure HistResponse where
  status : Nat
  opens : Option (List ℚ)
  highs : Option (List ℚ)
  lows : Option (List ℚ)
  closes : Option (List ℚ)
  volumes : Option (List ℚ)
  timestamps : Option (List String)
deriving DecidableEq

/-- Lines 174–207 of `get_historical_data`: on a 200 response whose JSON
carries all of `'open'/'high'/'low'/'close'`, one candle is built per
index of the `'open'` array; `xs[i] if i < len(xs) else default` is
`List.getD xs i default`.  Any other status, a missing key, or an
exception returns `None`. -/
def get_historical_data (r : HistResponse) : Option (List Candle) :=
  if r.status = 200 then
    if r.opens.isSome ∧ r.highs.isSome ∧ r.lows.isSome ∧ r.closes.isSome then
      some ((List.range (r.opens.getD []).length).map (fun i =>
        ⟨(r.timestamps.getD []).getD i "", (r.opens.getD []).getD i 0,
          (r.highs.getD []).getD i 0, (r.lows.getD []).getD i 0,
          (r.closes.getD []).getD i 0, (r.volumes.getD []).getD i 0⟩))
    else none
  else none

/-- Concrete response for the C10 witness: the `'high'`, `'volume'` and
`'start_Time'` arrays are shorter than the `'open'` array. -/
def raggedHistResponse : HistResponse :=
  ⟨200, some [1, 2], some [10], some [1, 2], some [3, 4], some [], none⟩

/-- An upstream HTTP response as `get_option_chain` observes it: status
code, the `Retry-After` header (present on rate-limited replies; the
Python body never reads any header), and the parsed `data['data']` field
(`none` when the body is missing it or it is falsy). -/
structure HttpResponse where
  status : Nat
  retry_after : Option String
  data : Option OcPayload
deriving DecidableEq

/-- Lines 324–354, `get_option_chain`: on status 200 return `data['data']`
when truthy, else `None`; on ANY other status (429 included) log the code
and return `None`.  The body contains no `time.sleep`, no retry loop and
no header access, so the list of waits the call signals is always empty —
recorded as the second component. -/
def get_option_chain (r : HttpResponse) : Option OcPayload × List ℚ :=
  (if r.status = 200 then r.data else none, [])

/-- An empty option-chain payload used as a concrete body. -/
def emptyOcPayload : OcPayload := ⟨none, []⟩

/-- The environment of one `process_stock` run (lines 633–715): the
outcome of each fallible collaborator call, in pipeline order, plus
`raises`, which models an exception thrown anywhere inside the `try`
block (converted to `return None` by the blanket `except` at line 713). -/
structure StockEnv where
  in_security_map : Bool
  expiry : Option String
  oc_data : Option OcPayload
  candles : Option (List Candle)
  chart_ok : Bool
  flash_tradeable : Bool
  pro_ok : Bool
  gpt_valid : Bool
  raises : Bool
deriving DecidableEq

/-- Lines 633–715, `process_stock`: every early `return None` guard of
the Python reproduced in order; a successful run returns the trade
signal, represented by its `spot_price` field. -/
def process_stock (e : StockEnv) : Option ℚ :=
  if e.raises then none
  else if ¬ e.in_security_map then none
  else match e.expiry with
  | none => none
  | some _ =>
    match e.oc_data with
    | none => none
    | some oc =>
      if (pre_filter_stock oc).1 = false then none
      else match e.candles with
      | none => none
      | some cs =>
        if cs.length < 10 then none
        else if ¬ e.chart_ok then none
        else if ¬ e.flash_tradeable then none
        else if ¬ e.pro_ok then none
        else if ¬ e.gpt_valid then none
        else some (spot_price_of oc)

/-- Modelled from the spec: the batch driver that runs the per-instrument
pipeline over every configured instrument is not under `src/` (the file
ends right after `process_stock`); spec §7 requires "no exception from a
single instrument's processing may abort the batch; each instrument's
failure is isolated and recorded independently".  The driver applies
`process_stock` to each instrument in turn. -/
def process_batch (es : List StockEnv) : List (Option ℚ) :=
  es.map process_stock

/-- An instrument environment that is skipped because the symbol is not in
the security map. -/
def skippedEnv : StockEnv := ⟨false, none, none, none, false, false, false, false, false⟩

/-- An instrument environment whose processing raises. -/
def raisingEnv : StockEnv :=
  ⟨true, some "2025-10-16", some emptyOcPayload, none, false, false, false, false, true⟩

/-- State-threaded embedding of the windowing computation
(`format_option_data_for_ai`, lines 410–417): every primitive the Python
applies to the payload — `oc_data.get('oc', {})`, `oc.keys()`, `sorted`
(which builds a new list), `min`, `.index`, slicing — reads without
mutating its receiver, so each step returns its value together with the
payload it leaves behind. -/
def format_window_st (d : OcPayload) (spot : ℚ) :
    Option (ℚ × List ℚ) × OcPayload :=
  let step1 := (d.oc, d)
  let step2 := (step1.1.map Prod.fst, step1.2)
  (optionWindow spot step2.1, step2.2)

/-- State-threaded `pre_filter_stock`: same reads, no writes. -/
def pre_filter_st (d : OcPayload) : (Bool × FilterVerdict) × OcPayload :=
  (pre_filter_stock d, d)

/-- The five transport states of spec §4.5 plus the terminal state. -/
inductive TransportMode
  | connecting
  | streaming
  | failingOver
  | polling
  | coolingDown
  | terminal
deriving DecidableEq

/-- Supervisor state: current mode and the consecutive-failure counter of
the current streaming attempt. -/
structure SupervisorState where
  mode : TransportMode
  failures : Nat
deriving DecidableEq

/-- Events driving the Transport Supervisor. -/
inductive TransportEvent
  | subscribeOk
  | streamFailure
  | reconnectOk
  | cooldownElapsed
  | shutdownReq
deriving DecidableEq

/-- Modelled from the spec: the Transport Supervisor state machine of
§4.5 is missing from `src/` (the file contains no streaming transport at
all, only the polling HTTP path).  Transitions follow the spec's words:
Connecting → Streaming on a successful subscribe handshake; Streaming →
FailingOver on a failure, incrementing the counter; in FailingOver each
further failure increments the counter and reaching the threshold 3 moves
to Polling, while a successful immediate reconnect returns to Streaming
and resets the counter; Polling → CoolingDown when the cool-down point is
reached, whence a successful re-subscribe returns to Streaming (counters
reset) and a failure returns to Polling; any state → Terminal on an
explicit shutdown request. -/
def supervisorStep (s : SupervisorState) (e : TransportEvent) : SupervisorState :=
  match e with
  | .shutdownReq => ⟨.terminal, s.failures⟩
  | _ =>
    match s.mode with
    | .connecting =>
      match e with
      | .subscribeOk => ⟨.streaming, 0⟩
      | .streamFailure => ⟨.polling, s.failures⟩
      | _ => s
    | .streaming =>
      match e with
      | .streamFailure =>
        if s.failures + 1 ≥ 3 then ⟨.polling, s.failures + 1⟩
        else ⟨.failingOver, s.failures + 1⟩
      | _ => s
    | .failingOver =>
      match e with
      | .streamFailure =>
        if s.failures + 1 ≥ 3 then ⟨.polling, s.failures + 1⟩
        else ⟨.failingOver, s.failures + 1⟩
      | .reconnectOk => ⟨.streaming, 0⟩
      | _ => s
    | .polling =>
      match e with
      | .cooldownElapsed => ⟨.coolingDown, s.failures⟩
      | _ => s
    | .coolingDown =>
      match e with
      | .subscribeOk => ⟨.streaming, 0⟩
      | .reconnectOk => ⟨.streaming, 0⟩
      | .streamFailure => ⟨.polling, s.failures⟩
      | _ => s
    | .terminal => s

/-- Modelled from the spec: in Polling mode quote acquisition uses the
polling Quote Fetcher on a fixed 60-second interval instead of the
stream. -/
inductive QuoteSource
  | stream
  | pollingFetcher (intervalSeconds : Nat)
deriving DecidableEq

def quoteSourceOf (m : TransportMode) : QuoteSource :=
  if m = .streaming then .stream else .pollingFetcher 60

theorem pyAbs_eq_abs (q : ℚ) : pyAbs q = |q| := by
  unfold pyAbs
  by_cases h : q < 0
  · rw [if_pos h, abs_of_neg h]
  · rw [if_neg h, abs_of_nonneg (not_lt.mp h)]

/-- Core invariant of the `pyMin` fold: the result is the accumulator or a
later element that strictly improved on it, and its key is minimal over the
accumulator and all scanned elements. -/
theorem pyMin_fold_spec (f : ℚ → ℚ) :
    ∀ (xs : List ℚ) (b : ℚ),
      (f (pyMin f b xs) ≤ f b ∧ ∀ y ∈ xs, f (pyMin f b xs) ≤ f y) ∧
      (pyMin f b xs = b ∨ (pyMin f b xs ∈ xs ∧ f (pyMin f b xs) < f b)) := by
  intro xs
  induction xs with
  | nil => intro b; exact ⟨⟨le_refl _, by simp⟩, Or.inl rfl⟩
  | cons a xs ih =>
    intro b
    by_cases hab : f a < f b
    · have hstep : pyMin f b (a :: xs) = pyMin f a xs := by
        simp [pyMin, List.foldl, hab]
      obtain ⟨⟨h1, h2⟩, h3⟩ := ih a
      rw [hstep]
      refine ⟨⟨le_of_lt (lt_of_le_of_lt h1 hab), ?_⟩, ?_⟩
      · intro y hy
        rcases List.mem_cons.mp hy with hy | hy
        · rw [hy]; exact h1
        · exact h2 y hy
      · rcases h3 with h3 | ⟨hmem, hlt⟩
        · refine Or.inr ⟨?_, ?_⟩
          · rw [h3]; exact List.mem_cons_self a xs
          · rw [h3]; exact hab
        · exact Or.inr ⟨List.mem_cons_of_mem a hmem, lt_of_lt_of_le hlt (le_of_lt hab)⟩
    · have hstep : pyMin f b (a :: xs) = pyMin f b xs := by
        simp [pyMin, List.foldl, hab]
      obtain ⟨⟨h1, h2⟩, h3⟩ := ih b
      rw [hstep]
      push_neg at hab
      refine ⟨⟨h1, ?_⟩, ?_⟩
      · intro y hy
        rcases List.mem_cons.mp hy with hy | hy
        · rw [hy]; exact le_trans h1 hab
        · exact h2 y hy
      · rcases h3 with h3 | ⟨hmem, hlt⟩
        · exact Or.inl h3
        · exact Or.inr ⟨List.mem_cons_of_mem a hmem, hlt⟩

/-- `pyMin` returns a member of the scanned list. -/
theorem pyMin_mem (f : ℚ → ℚ) (x : ℚ) (xs : List ℚ) :
    pyMin f x xs ∈ x :: xs := by
  rcases (pyMin_fold_spec f xs x).2 with h | ⟨h, _⟩
  · rw [h]; exact List.mem_cons_self x xs
  · exact List.mem_cons_of_mem x h

/-- `pyMin`'s key is minimal over the whole scanned list. -/
theorem pyMin_le (f : ℚ → ℚ) (x : ℚ) (xs : List ℚ) :
    ∀ y ∈ x :: xs, f (pyMin f x xs) ≤ f y := by
  intro y hy
  obtain ⟨⟨h1, h2⟩, _⟩ := pyMin_fold_spec f xs x
  rcases List.mem_cons.mp hy with hy | hy
  · rw [hy]; exact h1
  · exact h2 y hy

/-- On a list sorted ascending, `pyMin` (first-minimum-wins) returns an
element `≤` every other element achieving an equal-or-smaller key: ties
break toward the smaller element. -/
theorem pyMin_sorted_tie (f : ℚ → ℚ) :
    ∀ (xs : List ℚ) (b : ℚ), (b :: xs).Sorted (· ≤ ·) →
      ∀ y ∈ b :: xs, f y ≤ f (pyMin f b xs) → pyMin f b xs ≤ y := by
  intro xs
  induction xs with
  | nil =>
    intro b _ y hy _
    rw [List.mem_singleton.mp hy]
    simp [pyMin]
  | cons a xs ih =>
    intro b hsorted y hy hfy
    have hba : b ≤ a := (List.sorted_cons.mp hsorted).1 a (List.mem_cons_self a xs)
    have hsa : (a :: xs).Sorted (· ≤ ·) := (List.sorted_cons.mp hsorted).2
    have hsb : (b :: xs).Sorted (· ≤ ·) := by
      refine List.sorted_cons.mpr ⟨?_, (List.sorted_cons.mp hsa).2⟩
      intro c hc
      exact le_trans hba ((List.sorted_cons.mp hsa).1 c hc)
    by_cases hab : f a < f b
    · have hstep : pyMin f b (a :: xs) = pyMin f a xs := by
        simp [pyMin, List.foldl, hab]
      rw [hstep] at hfy ⊢
      rcases List.mem_cons.mp hy with hyb | hya
      · subst hyb
        exfalso
        have hle : f (pyMin f a xs) ≤ f a := (pyMin_fold_spec f xs a).1.1
        exact absurd (le_trans hfy hle) (not_le.mpr hab)
      · exact ih a hsa y hya hfy
    · have hstep : pyMin f b (a :: xs) = pyMin f b xs := by
        simp [pyMin, List.foldl, hab]
      push_neg at hab
      rw [hstep] at hfy ⊢
      rcases List.mem_cons.mp hy with hyb | hya
      · rw [hyb] at hfy ⊢
        exact ih b hsb b (List.mem_cons_self b xs) hfy
      · rcases List.mem_cons.mp hya with hya | hyxs
        · rw [hya] at hfy ⊢
          have hmin : f (pyMin f b xs) ≤ f b := (pyMin_fold_spec f xs b).1.1
          rcases (pyMin_fold_spec f xs b).2 with heq | ⟨_, hlt⟩
          · rw [heq]; exact hba
          · exact absurd (lt_of_lt_of_le hlt (le_trans hab hfy)) (lt_irrefl _)
        · exact ih b hsb y (List.mem_cons_of_mem b hyxs) hfy

/-- C1: for every non-empty strike sequence `S` and spot `p`, the
option-chain window of `format_option_data_for_ai` is sorted ascending,
has at most `2*5+1 = 11` entries, and is exactly the contiguous slice of
the ascending-sorted strikes around the ATM index clamped to the valid
index range (`max(0, i-5)` to `min(len, i+6)`): no wraparound, no
padding. -/
theorem optionWindow_sorted_bounded_slice (S : List ℚ) (p : ℚ) (hS : S ≠ []) :
    ∃ atm w, optionWindow p S = some (atm, w) ∧
      List.Sorted (· ≤ ·) w ∧
      w.length ≤ 2 * 5 + 1 ∧
      w = ((sortedStrikes S).drop ((sortedStrikes S).indexOf atm - 5)).take
            (min (sortedStrikes S).length ((sortedStrikes S).indexOf atm + 6) -
              ((sortedStrikes S).indexOf atm - 5)) := by
  cases h : List.insertionSort (· ≤ ·) S with
  | nil =>
    exfalso
    apply hS
    have hp := List.perm_insertionSort (· ≤ ·) S
    rw [h] at hp
    exact hp.symm.eq_nil
  | cons x xs =>
    have hw : optionWindow p S = some (windowSlice p x xs) := by
      unfold optionWindow
      rw [h]
    have hsorted : List.Sorted (· ≤ ·) (x :: xs) := by
      rw [← h]
      exact List.sorted_insertionSort (· ≤ ·) S
    have hss : sortedStrikes S = x :: xs := h
    have h2 : (windowSlice p x xs).2 =
        ((x :: xs).drop ((x :: xs).indexOf (pyMin (fun y => pyAbs (y - p)) x xs) - 5)).take
          (min (x :: xs).length
              ((x :: xs).indexOf (pyMin (fun y => pyAbs (y - p)) x xs) + 6) -
            ((x :: xs).indexOf (pyMin (fun y => pyAbs (y - p)) x xs) - 5)) := rfl
    refine ⟨(windowSlice p x xs).1, (windowSlice p x xs).2, by rw [hw], ?_, ?_, ?_⟩
    · rw [h2]
      exact List.Pairwise.sublist
        ((List.take_sublist _ _).trans (List.drop_sublist _ _)) hsorted
    · rw [h2]
      simp only [List.length_take, List.length_drop]
      omega
    · rw [h2, hss]
      rfl

/-- Witness for C1 at a concrete input: five strikes near the lower edge,
so the clamped window is shorter than 11. -/
theorem optionWindow_sorted_bounded_slice_witness :
    ([100, 105, 110, 115, 120] : List ℚ) ≠ [] ∧
    ∃ atm w, optionWindow 101 [100, 105, 110, 115, 120] = some (atm, w) ∧
      List.Sorted (· ≤ ·) w ∧
      w.length ≤ 2 * 5 + 1 ∧
      w = ((sortedStrikes [100, 105, 110, 115, 120]).drop
            ((sortedStrikes [100, 105, 110, 115, 120]).indexOf atm - 5)).take
            (min (sortedStrikes [100, 105, 110, 115, 120]).length
                ((sortedStrikes [100, 105, 110, 115, 120]).indexOf atm + 6) -
              ((sortedStrikes [100, 105, 110, 115, 120]).indexOf atm - 5)) :=
  ⟨by simp, optionWindow_sorted_bounded_slice [100, 105, 110, 115, 120] 101 (by simp)⟩

/-- C2: for every non-empty strike sequence and spot `p`, the selected ATM
strike is the first element in ascending order minimizing `|strike - p|`
(so equidistant ties resolve to the lower strike), and on strikes
`[24000, 24100, 24200, 24300]` with spot `24180` the ATM strike is
`24200`. -/
theorem atm_first_minimizer :
    (∀ (S : List ℚ) (p : ℚ), S ≠ [] →
      ∃ atm w, optionWindow p S = some (atm, w) ∧ atm ∈ S ∧
        (∀ y ∈ S, |atm - p| ≤ |y - p|) ∧
        (∀ y ∈ S, |y - p| = |atm - p| → atm ≤ y)) ∧
    (optionWindow 24180 [24000, 24100, 24200, 24300]).map Prod.fst =
      some 24200 := by
  constructor
  · intro S p hS
    cases h : List.insertionSort (· ≤ ·) S with
    | nil =>
      exfalso
      apply hS
      have hp := List.perm_insertionSort (· ≤ ·) S
      rw [h] at hp
      exact hp.symm.eq_nil
    | cons x xs =>
      have hw : optionWindow p S = some (windowSlice p x xs) := by
        unfold optionWindow
        rw [h]
      have hsorted : List.Sorted (· ≤ ·) (x :: xs) := by
        rw [← h]
        exact List.sorted_insertionSort (· ≤ ·) S
      have hmemS : ∀ y : ℚ, y ∈ S ↔ y ∈ x :: xs := by
        intro y
        rw [← h]
        exact (List.mem_insertionSort _).symm
      have h1 : (windowSlice p x xs).1 = pyMin (fun y => pyAbs (y - p)) x xs := rfl
      refine ⟨(windowSlice p x xs).1, (windowSlice p x xs).2, by rw [hw], ?_, ?_, ?_⟩
      · rw [h1, hmemS]
        exact pyMin_mem _ x xs
      · intro y hy
        rw [h1]
        have := pyMin_le (fun y => pyAbs (y - p)) x xs y ((hmemS y).mp hy)
        simpa [pyAbs_eq_abs] using this
      · intro y hy heq
        rw [h1]
        apply pyMin_sorted_tie (fun y => pyAbs (y - p)) xs x hsorted y ((hmemS y).mp hy)
        show pyAbs (y - p) ≤ pyAbs (pyMin (fun y => pyAbs (y - p)) x xs - p)
        rw [pyAbs_eq_abs, pyAbs_eq_abs]
        exact le_of_eq heq
  · norm_num [optionWindow, windowSlice, pyMin, pyAbs, List.insertionSort,
      List.orderedInsert, List.indexOf, List.findIdx, List.findIdx.go,
      cond_eq_if, beq_iff_eq]

/-- Witness for C2 at a concrete tie: strikes 95 and 105 are equidistant
from spot 100 and the lower strike must be selected. -/
theorem atm_first_minimizer_witness :
    ([95, 105] : List ℚ) ≠ [] ∧
    ∃ atm w, optionWindow 100 [95, 105] = some (atm, w) ∧ atm ∈ ([95, 105] : List ℚ) ∧
      (∀ y ∈ ([95, 105] : List ℚ), |atm - 100| ≤ |y - 100|) ∧
      (∀ y ∈ ([95, 105] : List ℚ), |y - 100| = |atm - 100| → atm ≤ y) :=
  ⟨by simp, atm_first_minimizer.1 [95, 105] 100 (by simp)⟩

/-- C3 (amended): on an empty strike sequence the windowing raises
`ValueError` inside `min(strikes, key=...)`; the enclosing blanket
`except` of `format_option_data_for_ai` turns this into the `""` failure
return.  In the embedding the raised-and-caught path is `none`: no window
and in particular no `atmStrike` is produced. -/
theorem optionWindow_empty_none (p : ℚ) : optionWindow p [] = none := rfl

/-- C3 counterexample: at spot `100` and the empty strike sequence the
windowing result is the failure value `none`, not an empty window carrying
`atmStrike = 100` as the claim states. -/
theorem optionWindow_empty_counterexample :
    optionWindow 100 [] = none ∧ optionWindow 100 [] ≠ some (100, []) :=
  ⟨rfl, by intro h; exact Option.noConfusion (h.symm.trans rfl)⟩

/-- C4 (amended): a payload with no last price has its absence replaced by
`0` (`.get('last_price', 0)`), so the consumer sees exactly the same spot
as for a true zero price; absence is not propagated as an optional
value. -/
theorem lastPrice_defaulted_to_zero (d : OcPayload) (h : d.last_price = none) :
    spot_price_of d = 0 ∧
    spot_price_of d = spot_price_of ⟨some 0, d.oc⟩ := by
  unfold spot_price_of
  rw [h]
  exact ⟨rfl, rfl⟩

/-- Witness for C4 (amended) at the concrete payload with absent
`last_price` and empty chain. -/
theorem lastPrice_defaulted_to_zero_witness :
    (OcPayload.mk none []).last_price = none ∧
    (spot_price_of ⟨none, []⟩ = 0 ∧
      spot_price_of ⟨none, []⟩ = spot_price_of ⟨some 0, []⟩) :=
  ⟨rfl, lastPrice_defaulted_to_zero ⟨none, []⟩ rfl⟩

/-- C4 counterexample: the payload missing `last_price` and the payload
with a true zero last price produce identical spot values (`0`), so a
downstream consumer cannot distinguish "data unavailable" from a true
zero, contradicting the claim that absence is propagated. -/
theorem lastPrice_absent_indistinguishable :
    spot_price_of ⟨none, []⟩ = 0 ∧
    spot_price_of ⟨none, []⟩ = spot_price_of ⟨some 0, []⟩ :=
  ⟨rfl, rfl⟩

/-- C9: the pre-filter never divides by zero — with a zero ATM call OI the
PCR is defined as `0` by the guarded conditional, the verdict is `False`,
and whenever the PCR stage is reached (total OI passes the 10,000 gate)
the rejection is exactly the out-of-range PCR `0 ∉ [0.6, 1.5]`. -/
theorem pre_filter_zero_ce_oi (d : OcPayload) (h1 : d.oc ≠ [])
    (h2 : atmCeOI d = 0) :
    (pre_filter_stock d).1 = false ∧
    pcr_of d = 0 ∧
    ¬ ((6 : ℚ)/10 ≤ pcr_of d ∧ pcr_of d ≤ 3/2) ∧
    (10000 ≤ atmCeOI d + atmPeOI d → (pre_filter_stock d).2 = .pcrOut 0) := by
  have hpcr : pcr_of d = 0 := by
    unfold pcr_of
    rw [h2]
    simp
  have hrange : ¬ ((6 : ℚ)/10 ≤ pcr_of d ∧ pcr_of d ≤ 3/2) := by
    rw [hpcr]
    intro hc
    have := hc.1
    norm_num at this
  refine ⟨?_, hpcr, hrange, ?_⟩
  · unfold pre_filter_stock
    rw [if_neg h1]
    by_cases hoi : atmCeOI d + atmPeOI d < 10000
    · rw [if_pos hoi]
    · rw [if_neg hoi, if_pos hrange]
  · intro hge
    have hoi : ¬ atmCeOI d + atmPeOI d < 10000 := not_lt.mpr hge
    unfold pre_filter_stock
    rw [if_neg h1, if_neg hoi, if_pos hrange, hpcr]

/-- Witness for C9 at `zeroCePayload`: zero call OI, 20,000 put OI. -/
theorem pre_filter_zero_ce_oi_witness :
    zeroCePayload.oc ≠ [] ∧ atmCeOI zeroCePayload = 0 ∧
    ((pre_filter_stock zeroCePayload).1 = false ∧
      pcr_of zeroCePayload = 0 ∧
      ¬ ((6 : ℚ)/10 ≤ pcr_of zeroCePayload ∧ pcr_of zeroCePayload ≤ 3/2) ∧
      (10000 ≤ atmCeOI zeroCePayload + atmPeOI zeroCePayload →
        (pre_filter_stock zeroCePayload).2 = .pcrOut 0)) := by
  have hA : atmCeOI zeroCePayload = 0 := by
    simp [atmCeOI, atm_data_of, dictGet, atmStrikeOf, spot_price_of,
      zeroCePayload, zeroCeSide, bigPeSide, sideField, pyMin,
      List.insertionSort, List.orderedInsert, List.find?]
  exact ⟨by simp [zeroCePayload], hA,
    pre_filter_zero_ce_oi zeroCePayload (by simp [zeroCePayload]) hA⟩

/-- C10: `get_historical_data` returns `None` or a candle list whose
length equals the `'open'` array's length, each record holding the
positionally indexed fields with short arrays defaulted (`""` for
timestamp, `0` for the numerics) instead of raising an index error. -/
theorem get_historical_data_shape (r : HistResponse) (cs : List Candle)
    (h : get_historical_data r = some cs) :
    cs.length = (r.opens.getD []).length ∧
    ∀ i (hi : i < cs.length),
      cs.get ⟨i, hi⟩ =
        ⟨(r.timestamps.getD []).getD i "", (r.opens.getD []).getD i 0,
          (r.highs.getD []).getD i 0, (r.lows.getD []).getD i 0,
          (r.closes.getD []).getD i 0, (r.volumes.getD []).getD i 0⟩ := by
  unfold get_historical_data at h
  by_cases h200 : r.status = 200
  · rw [if_pos h200] at h
    by_cases hkeys : r.opens.isSome ∧ r.highs.isSome ∧ r.lows.isSome ∧ r.closes.isSome
    · rw [if_pos hkeys] at h
      have hcs := (Option.some.injEq _ _).mp h
      subst hcs
      constructor
      · simp
      · intro i hi
        simp [List.get_eq_getElem]
    · rw [if_neg hkeys] at h
      exact absurd h (by simp)
  · rw [if_neg h200] at h
    exact absurd h (by simp)

/-- Witness for C10 at `raggedHistResponse`: two candles are built, the
missing `high`/`volume`/`timestamp` entries defaulting to `0`/`""`. -/
theorem get_historical_data_shape_witness :
    get_historical_data raggedHistResponse =
      some [⟨"", 1, 10, 1, 3, 0⟩, ⟨"", 2, 0, 2, 4, 0⟩] ∧
    (([⟨"", 1, 10, 1, 3, 0⟩, ⟨"", 2, 0, 2, 4, 0⟩] : List Candle).length =
        (raggedHistResponse.opens.getD []).length ∧
      ∀ i (hi : i < ([⟨"", 1, 10, 1, 3, 0⟩, ⟨"", 2, 0, 2, 4, 0⟩] : List Candle).length),
        ([⟨"", 1, 10, 1, 3, 0⟩, ⟨"", 2, 0, 2, 4, 0⟩] : List Candle).get ⟨i, hi⟩ =
          ⟨(raggedHistResponse.timestamps.getD []).getD i "",
            (raggedHistResponse.opens.getD []).getD i 0,
            (raggedHistResponse.highs.getD []).getD i 0,
            (raggedHistResponse.lows.getD []).getD i 0,
            (raggedHistResponse.closes.getD []).getD i 0,
            (raggedHistResponse.volumes.getD []).getD i 0⟩) := by
  have h : get_historical_data raggedHistResponse =
      some [⟨"", 1, 10, 1, 3, 0⟩, ⟨"", 2, 0, 2, 4, 0⟩] := by
    simp [get_historical_data, raggedHistResponse, List.range_succ]
  exact ⟨h, get_historical_data_shape raggedHistResponse _ h⟩

/-- C5 (amended): `get_option_chain` treats 429 like every other non-200
status — it returns `None`, signals no wait at all, and its result is
independent of the `Retry-After` header, which it never reads. -/
theorem get_option_chain_non_200 (r : HttpResponse) (h : r.status ≠ 200) :
    get_option_chain r = (none, []) ∧
    (∀ x : Option String, get_option_chain r =
      get_option_chain ⟨r.status, x, r.data⟩) := by
  constructor
  · unfold get_option_chain
    rw [if_neg h]
  · intro x
    unfold get_option_chain
    rfl

/-- Witness for C5 (amended) at a concrete 429 response carrying
`Retry-After: 7`. -/
theorem get_option_chain_non_200_witness :
    (429 : Nat) ≠ 200 ∧
    (get_option_chain ⟨429, some "7", some emptyOcPayload⟩ = (none, []) ∧
      (∀ x : Option String, get_option_chain ⟨429, some "7", some emptyOcPayload⟩ =
        get_option_chain ⟨429, x, some emptyOcPayload⟩)) :=
  ⟨by decide, get_option_chain_non_200 ⟨429, some "7", some emptyOcPayload⟩ (by decide)⟩

/-- C5 counterexample: on status 429 with `Retry-After: 7` the code
signals no 7-second wait (it signals no wait at all and behaves exactly as
with the header absent), refuting the claimed Retry-After handling. -/
theorem get_option_chain_429_counterexample :
    (get_option_chain ⟨429, some "7", some emptyOcPayload⟩).2 = [] ∧
    (get_option_chain ⟨429, some "7", some emptyOcPayload⟩).2 ≠ [7] ∧
    get_option_chain ⟨429, some "7", some emptyOcPayload⟩ =
      get_option_chain ⟨429, none, some emptyOcPayload⟩ :=
  ⟨rfl, by simp [get_option_chain], rfl⟩

/-- C6: an exception while processing one instrument is absorbed by that
instrument's catch-all (yielding `none` for it) and the rest of the batch
is still processed on both sides. -/
theorem process_batch_isolates (pre post : List StockEnv) (bad : StockEnv)
    (h : bad.raises = true) :
    process_batch (pre ++ bad :: post) =
      process_batch pre ++ none :: process_batch post := by
  have hbad : process_stock bad = none := by
    unfold process_stock
    rw [h]
    rfl
  simp [process_batch, hbad]

/-- Witness for C6: a three-instrument batch whose middle instrument
raises. -/
theorem process_batch_isolates_witness :
    raisingEnv.raises = true ∧
    process_batch ([skippedEnv] ++ raisingEnv :: [skippedEnv]) =
      process_batch [skippedEnv] ++ none :: process_batch [skippedEnv] :=
  ⟨rfl, process_batch_isolates [skippedEnv] [skippedEnv] raisingEnv rfl⟩

/-- C7: the windowing computation is a pure function of its inputs — the
payload observed after the call equals the payload before it (for both
`format_option_data_for_ai`'s window and `pre_filter_stock`), and the
result is exactly the pure `optionWindow` function of the extracted strike
keys and the spot. -/
theorem windowing_pure (d : OcPayload) (p : ℚ) :
    (format_window_st d p).2 = d ∧
    (pre_filter_st d).2 = d ∧
    (format_window_st d p).1 = optionWindow p (d.oc.map Prod.fst) :=
  ⟨rfl, rfl, rfl⟩

/-- C8: three consecutive stream failures drive the Supervisor from
Streaming to Polling — where quote acquisition uses the polling Quote
Fetcher on the fixed 60-second interval — and a successful reconnect after
the cool-down returns it to Streaming. -/
theorem supervisor_failover_recovery :
    (List.foldl supervisorStep ⟨.streaming, 0⟩
        [.streamFailure, .streamFailure, .streamFailure]).mode = .polling ∧
    quoteSourceOf (List.foldl supervisorStep ⟨.streaming, 0⟩
        [.streamFailure, .streamFailure, .streamFailure]).mode =
      .pollingFetcher 60 ∧
    (List.foldl supervisorStep ⟨.streaming, 0⟩
        [.streamFailure, .streamFailure, .streamFailure,
          .cooldownElapsed, .subscribeOk]).mode = .streaming := by
  decide
